import Mathlib

/-!
Shallow embedding of the bible-checker core (src/src/utils.js,
src/src/USJHandler.js and the orchestrator src/unnamed/part_001) and proofs
about it.

Conventions of the embedding:
* A USJ tree node is either a raw string (`Node.text`) or a structured
  object with optional `marker`, `number`, `type` fields and a `content`
  list.  A JS object without a `content` field and one with `content: []`
  are observationally identical in every traversal of the source, so the
  embedding uses a plain `List Node` for `content`.
* JS `parseInt(s, 10)` is modelled by `parseIntJS : String → Option Int`,
  `none` standing for `NaN`.  Comparisons with `NaN` are false (`jsLt`),
  `NaN` prints as `"NaN"` in template strings (`jsIntStr`), and
  `Array.includes` uses SameValueZero, under which `NaN` equals `NaN`,
  matching `BEq (Option Int)`.
* JS objects used as maps are association lists updated in place
  (`objSet`); iteration (`Object.entries`) is modelled as list order.
* Code that throws at runtime is modelled in `Except String`.
-/

/-- JS truthiness of an optional string field (non-empty string is truthy). -/
def jsTruthyS : Option String → Bool
  | some s => !s.isEmpty
  | none => false

/-- A JS number restricted to the integer results of `parseInt`; `none` is `NaN`. -/
abbrev JSInt := Option Int

/-- ASCII digit test (JS regex `\d`). -/
def isAsciiDigit (c : Char) : Bool :=
  '0' ≤ c ∧ c ≤ '9'

/-- JS regex word character `\w` = `[A-Za-z0-9_]`. -/
def isWordChar (c : Char) : Bool :=
  ('a' ≤ c ∧ c ≤ 'z') ∨ ('A' ≤ c ∧ c ≤ 'Z') ∨ isAsciiDigit c ∨ c = '_'

/-- The whitespace class of JS regex `\s` / `String.prototype.trim`
(space, tab, LF, VT, FF, CR, NBSP; wider Unicode spaces are not needed
by any document in the development). -/
def isWsJS (c : Char) : Bool :=
  c = ' ' ∨ c = '\t' ∨ c = '\n' ∨ c = '\x0b' ∨ c = '\x0c' ∨ c = '\r' ∨ c = ' '

/-- Value of an ASCII digit. -/
def digitVal (c : Char) : Nat := c.toNat - '0'.toNat

/-- `String.prototype.trim`: strip leading and trailing whitespace. -/
def jsTrim (s : String) : String :=
  String.mk (((s.data.dropWhile isWsJS).reverse.dropWhile isWsJS).reverse)

/-- `parseInt(s, 10)`: skip leading whitespace, optional sign, then the
longest digit prefix; `none` (`NaN`) when no digit is found. -/
def parseIntJS (s : String) : JSInt :=
  let l := s.data.dropWhile isWsJS
  let (sign, l) : Int × List Char :=
    match l with
    | '-' :: rest => (-1, rest)
    | '+' :: rest => (1, rest)
    | _ => (1, l)
  let digits := l.takeWhile isAsciiDigit
  if digits.isEmpty then none
  else some (sign * (digits.foldl (fun acc c => 10 * acc + digitVal c) 0 : Nat))

/-- Template-string rendering of a JS number (`NaN` prints as "NaN"). -/
def jsIntStr : JSInt → String
  | none => "NaN"
  | some n => toString n

/-- `a < b` on JS numbers: any comparison involving `NaN` is false. -/
def jsLt : JSInt → JSInt → Bool
  | some a, some b => a < b
  | _, _ => false

/-- Association-list lookup (first match), the JS `obj[key]` read. -/
def objGet {α : Type} (l : List (String × α)) (k : String) : Option α :=
  (l.find? (fun p => p.1 == k)).map (·.2)

/-- JS `obj[key] = v`: overwrite in place if the key exists (its position in
the enumeration order is kept), otherwise append. -/
def objSet {α : Type} : List (String × α) → String → α → List (String × α)
  | [], k, v => [(k, v)]
  | p :: rest, k, v => if p.1 == k then (k, v) :: rest else p :: objSet rest k v

/-- A node of the USJ markup tree: raw text or a structured object. -/
inductive Node where
  | text (s : String)
  | node (marker : Option String) (number : Option String) (typ : Option String)
      (content : List Node)

/-- A parsed USJ document (the object whose `content` the code traverses). -/
structure Usj where
  content : List Node

/-- The `marker` field of a node (`undefined` on raw strings). -/
def Node.markerOf : Node → Option String
  | .text _ => none
  | .node m _ _ _ => m

/-- The `number` field of a node (`undefined` on raw strings). -/
def Node.numberOf : Node → Option String
  | .text _ => none
  | .node _ n _ _ => n

/-- JS `array.join('')` over a `content` array: strings verbatim, objects
stringify to "[object Object]". -/
def jsJoin : List Node → String
  | [] => ""
  | .text s :: rest => s ++ jsJoin rest
  | .node _ _ _ _ :: rest => "[object Object]" ++ jsJoin rest

/-- Mutable closure state of `extractVerses` in src/src/utils.js. -/
structure EVState where
  currentChapter : Option String
  currentVerse : Option String
  currentContent : String
  verses : List (String × String)
deriving Repr, DecidableEq

/-- `verses[chapter + ":" + verse] = content.trim()` guarded by
`if (currentChapter && currentVerse)`. -/
def evFlush (st : EVState) : List (String × String) :=
  if jsTruthyS st.currentChapter && jsTruthyS st.currentVerse then
    objSet st.verses
      ((st.currentChapter.getD "") ++ ":" ++ (st.currentVerse.getD ""))
      (jsTrim st.currentContent)
  else st.verses

mutual

/-- One iteration of the `for (const item of content)` body of the nested
`traverse` in `extractVerses` (src/src/utils.js lines 37-62): the if/else-if
chain on `c`-marker, `v`-marker, raw string, `char`-typed node, and the
generic recursion into `item.content`. -/
def evNode (st : EVState) : Node → EVState
  | .text s => { st with currentContent := st.currentContent ++ s }
  | .node m num ty content =>
    if m == some "c" && jsTruthyS num then
      { st with currentChapter := num, currentVerse := none, currentContent := "" }
    else if m == some "v" && jsTruthyS num then
      { st with verses := evFlush st, currentVerse := num, currentContent := "" }
    else if ty == some "char" then
      { st with currentContent := st.currentContent ++ jsJoin content }
    else
      evList st content

/-- `traverse` over a content list, threading the closure state. -/
def evList (st : EVState) : List Node → EVState
  | [] => st
  | n :: rest => evList (evNode st n) rest

end

/-- `extractVerses` of src/src/utils.js: run the traversal from the empty
state, then save the last verse. -/
def extractVerses (usj : Usj) : List (String × String) :=
  evFlush (evList ⟨none, none, "", []⟩ usj.content)

mutual

/-- Pre-order flattening of one node: `USJHandler.traverse` invokes the
callback on the item and then recurses into its `content`. -/
def flatNode : Node → List Node
  | .text s => [.text s]
  | .node m num ty content => .node m num ty content :: flatList content

/-- Pre-order flattening of a content list (the visitation order of
`USJHandler.traverse`). -/
def flatList : List Node → List Node
  | [] => []
  | n :: rest => flatNode n ++ flatList rest

end

/-- `item.marker === 'c' && item.number` (truthy). -/
def isCNum (n : Node) : Bool :=
  n.markerOf == some "c" && jsTruthyS n.numberOf

/-- `item.marker === 'v' && item.number` (truthy). -/
def isVNum (n : Node) : Bool :=
  n.markerOf == some "v" && jsTruthyS n.numberOf

/-- The `TypeError` raised by `chapters[handler.currentChapter].push(...)`
when no chapter has been recorded yet. -/
def cvTypeError : String :=
  "TypeError: cannot read properties of undefined (reading push)"

/-- The visitor loop of `extractChapterVerses` (src/src/utils.js lines
84-93) over the pre-order node sequence, threading `chapters` and
`handler.currentChapter`.  A `v` marker with no chapter in scope reads
`chapters[undefined]`, a runtime `TypeError`, modelled as `Except.error`. -/
def exChGo : List Node → List (String × List JSInt) → Option String →
    Except String (List (String × List JSInt))
  | [], chs, _ => .ok chs
  | n :: rest, chs, cur =>
    if isCNum n then
      let num := n.numberOf.getD ""
      let chs := if (objGet chs num).isSome then chs else chs ++ [(num, [])]
      exChGo rest chs (some num)
    else if isVNum n then
      match cur with
      | none => .error cvTypeError
      | some ch =>
        match objGet chs ch with
        | none => .error cvTypeError
        | some vs =>
          exChGo rest (objSet chs ch (vs ++ [parseIntJS (n.numberOf.getD "")])) cur
    else
      exChGo rest chs cur

/-- `extractChapterVerses` of src/src/utils.js: map from chapter number to
the ordered list of `parseInt`-ed verse numbers. -/
def extractChapterVerses (usj : Usj) : Except String (List (String × List JSInt)) :=
  exChGo (flatList usj.content) [] none

/-- The numeral variants table of src/src/utils.js (`numeralMapping`). -/
def numeralMapping : List (String × List String) :=
  [("0", ["0", "٠"]), ("1", ["1", "١"]), ("2", ["2", "٢"]), ("3", ["3", "٣"]),
   ("4", ["4", "٤"]), ("5", ["5", "٥"]), ("6", ["6", "٦"]), ("7", ["7", "٧"]),
   ("8", ["8", "٨"]), ("9", ["9", "٩"])]

/-- `normalizeNumber` of src/src/utils.js. -/
def normalizeNumber (symbol : String) : Option String :=
  (numeralMapping.find? (fun p => symbol ∈ p.2)).map (·.1)

/-- `extractNumbers` of src/src/utils.js: every single character matching
`[\d٠-٩]`, normalized; `filter(Boolean)` drops the `null`s. -/
def extractNumbers (text : String) : List String :=
  (text.data.filter (fun c => isAsciiDigit c || ('٠' ≤ c && c ≤ '٩'))).filterMap
    (fun c => normalizeNumber (String.mk [c]))

/-- An issue of `detectShortLongVerses`.  The JS `difference` field is the
string `parseFloat(Math.abs(diffPercentage).toFixed(2)) + "%"`; the
embedding keeps the exact rational magnitude it renders. -/
structure StatsIssue where
  verse : String
  source_length : Nat
  target_length : Nat
  verse_text : String
  difference : Option ℚ
  comment : String
deriving Repr, DecidableEq

/-- `detectShortLongVerses` of src/src/utils.js. -/
def detectShortLongVerses (source target : Usj) (threshold : Int) :
    List StatsIssue :=
  let sourceVerses := extractVerses source
  let targetVerses := extractVerses target
  sourceVerses.flatMap fun kv =>
    let key := kv.1
    let sourceText := kv.2
    let targetText := (objGet targetVerses key).getD ""
    let sourceLength := (jsTrim sourceText).length
    let targetLength := (jsTrim targetText).length
    if sourceLength == 0 && targetLength > 0 then
      [⟨key, sourceLength, targetLength, targetText, none,
        "Source verse is empty, but target contains text."⟩]
    else if sourceLength > 0 && targetLength == 0 then
      [⟨key, sourceLength, targetLength, sourceText, none,
        "Target verse is empty, but source contains text."⟩]
    else if sourceLength > 0 && targetLength > 0 then
      let diffPercentage : ℚ :=
        (((targetLength : ℚ) - (sourceLength : ℚ)) / (sourceLength : ℚ)) * 100
      if |diffPercentage| > (threshold : ℚ) then
        [⟨key, sourceLength, targetLength, sourceText, some |diffPercentage|,
          if diffPercentage > 0 then "Target verse is too long compared to source."
          else "Target verse is too short compared to source."⟩]
      else []
    else []

/-- An issue of `checkChapterVerseIntegrity`.  `verse = none` models the
chapter-level issue objects, which carry no `verse`/`verse_text` fields. -/
structure IntegrityIssue where
  type : String
  chapter : JSInt
  verse : Option JSInt
  verse_text : Option String
  comment : String
deriving Repr, DecidableEq

/-- The inner `for (const verse of versesInChapter)` loop of
`validateIntegrity` (src/src/utils.js lines 196-217), threading `seen` and
`lastVerse` and returning the issues it pushes together with the final
`seen`. -/
def valVerses (textType : String) (chapter : JSInt) (verses : List (String × String)) :
    List JSInt → List String → JSInt → List IntegrityIssue × List String
  | [], seen, _ => ([], seen)
  | v :: rest, seen, lastVerse =>
    let key := jsIntStr chapter ++ ":" ++ jsIntStr v
    let out1 : List IntegrityIssue :=
      if jsLt v lastVerse then
        [⟨"out_of_order", chapter, some v, objGet verses key,
          textType ++ " has out-of-order verse " ++ jsIntStr v ++ " in chapter " ++
            jsIntStr chapter ++ "."⟩]
      else []
    let out2 : List IntegrityIssue :=
      if key ∈ seen then
        [⟨"duplicate", chapter, some v, objGet verses key,
          textType ++ " has duplicate verse " ++ jsIntStr v ++ " in chapter " ++
            jsIntStr chapter ++ "."⟩]
      else []
    let res := valVerses textType chapter verses rest (key :: seen) v
    (out1 ++ out2 ++ res.1, res.2)

/-- The outer `for ... of Object.entries(chapterVerses)` loop of
`validateIntegrity` (src/src/utils.js lines 183-218), threading `seen` and
`lastChapter`. -/
def valChapters (textType : String) (verses : List (String × String)) :
    List (String × List JSInt) → List String → JSInt → List IntegrityIssue
  | [], _, _ => []
  | (chS, vs) :: rest, seen, lastChapter =>
    let ch := parseIntJS chS
    let chIssue : List IntegrityIssue :=
      if jsLt ch lastChapter then
        [⟨"out_of_order", ch, none, none,
          textType ++ " has out-of-order chapter " ++ jsIntStr ch ++ "."⟩]
      else []
    let res := valVerses textType ch verses vs seen (some 0)
    chIssue ++ res.1 ++ valChapters textType verses rest res.2 ch

/-- `validateIntegrity` of src/src/utils.js with its initial state
(`seen` empty, `lastChapter = 0`, `lastVerse = 0` per chapter). -/
def validateIntegrity (chapterVerses : List (String × List JSInt))
    (textType : String) (verses : List (String × String)) : List IntegrityIssue :=
  valChapters textType verses chapterVerses [] (some 0)

/-- A `{check, issues}` report object. -/
structure IntegrityReport where
  check : String
  issues : List IntegrityIssue
deriving Repr, DecidableEq

/-- `checkChapterVerseIntegrity` of src/src/utils.js: both chapter indexes
are extracted (either extraction may throw), but only the target is
validated — the source call is commented out in the source. -/
def checkChapterVerseIntegrity (source target : Usj) : Except String IntegrityReport := do
  let _sourceChapters ← extractChapterVerses source
  let targetChapters ← extractChapterVerses target
  let _sourceVerses := extractVerses source
  let targetVerses := extractVerses target
  pure ⟨"chapter_verse_integrity", validateIntegrity targetChapters "Target" targetVerses⟩

/-- An issue of `detectMissingVerses`. -/
structure MissingIssue where
  chapter : JSInt
  verse : JSInt
  verse_text : Option String
  comment : String
deriving Repr, DecidableEq

/-- A `{check, issues}` report of `detectMissingVerses`. -/
structure MissingReport where
  check : String
  issues : List MissingIssue
deriving Repr, DecidableEq

/-- The issues pushed for one source chapter entry by `detectMissingVerses`
(src/src/utils.js lines 242-254): source verses absent (SameValueZero
`includes`) from the target's list for the same chapter key. -/
def missingIssuesFor (chS : String) (vs tvs : List JSInt)
    (sourceVerses : List (String × String)) : List MissingIssue :=
  (vs.filter (fun v => !tvs.contains v)).map fun v =>
    ⟨parseIntJS chS, v, objGet sourceVerses (chS ++ ":" ++ jsIntStr v),
      "Target is missing verse " ++ jsIntStr v ++ " in chapter " ++ chS ++ "."⟩

/-- `detectMissingVerses` of src/src/utils.js.  `targetChapters[chapter] || []`
falls back to the empty list only when the chapter is absent (an existing
empty array is truthy). -/
def detectMissingVerses (source target : Usj) : Except String MissingReport := do
  let sourceChapters ← extractChapterVerses source
  let targetChapters ← extractChapterVerses target
  let sourceVerses := extractVerses source
  pure ⟨"missing_verses",
    sourceChapters.flatMap fun p =>
      missingIssuesFor p.1 p.2 ((objGet targetChapters p.1).getD []) sourceVerses⟩

/-- An issue of `detectRepeatedWordsAndWhitespace`. -/
structure RepeatIssue where
  verse : String
  repeated_words : List String
  positions : List Nat
  whitespace_positions : List Nat
  whitespace_issue : Bool
  comment : String
deriving Repr, DecidableEq

/-- `text.split(/\s+/)`: pieces between maximal whitespace runs, including
the empty leading/trailing pieces JS produces when the text starts or ends
with whitespace.  `prevWs` records whether the previous character extended
a separator run. -/
def jsSplitWsAux : Bool → List Char → List Char → List String
  | _, [], cur => [String.mk cur.reverse]
  | prevWs, c :: rest, cur =>
    if isWsJS c then
      if prevWs then jsSplitWsAux true rest cur
      else String.mk cur.reverse :: jsSplitWsAux true rest []
    else jsSplitWsAux false rest (c :: cur)

/-- `text.split(/\s+/)`. -/
def jsSplitWs (s : String) : List String :=
  jsSplitWsAux false s.data []

/-- `word.toLowerCase().replace(/[.,!?"()]/g, '')`. -/
def cleanWord (w : String) : String :=
  String.mk ((w.data.map Char.toLower).filter
    (fun c => !(c = '.' ∨ c = ',' ∨ c = '!' ∨ c = '?' ∨ c = '"' ∨ c = '(' ∨ c = ')')))

/-- The `for (let i = 0; i < words.length - 1; i++)` scan for consecutive
repeated words, collecting the cleaned word and its index. -/
def repeatScan : List String → Nat → List String × List Nat
  | [], _ => ([], [])
  | [_], _ => ([], [])
  | w₁ :: w₂ :: rest, i =>
    let c₁ := cleanWord w₁
    let c₂ := cleanWord w₂
    let (ws, ps) := repeatScan (w₂ :: rest) (i + 1)
    if !c₁.isEmpty && c₁ == c₂ then (c₁ :: ws, i :: ps) else (ws, ps)

/-- Start offsets of the maximal runs matched by `/\s{2,}/g`: a position
with two whitespace characters not preceded by whitespace. -/
def wsRunStarts (s : String) : List Nat :=
  let cs := s.data
  (List.range cs.length).filter fun i =>
    isWsJS (cs.getD i 'a') && isWsJS (cs.getD (i + 1) 'a') &&
      decide (i = 0 ∨ isWsJS (cs.getD (i - 1) 'a') = false)

/-- First-occurrence deduplication, `[...new Set(l)]`. -/
def dedupFirst : List String → List String → List String
  | [], _ => []
  | x :: rest, seen =>
    if x ∈ seen then dedupFirst rest seen else x :: dedupFirst rest (x :: seen)

/-- A `{check, issues}` report of `detectRepeatedWordsAndWhitespace`. -/
structure RepeatReport where
  check : String
  issues : List RepeatIssue
deriving Repr, DecidableEq

/-- `detectRepeatedWordsAndWhitespace` of src/src/utils.js. -/
def detectRepeatedWordsAndWhitespace (target : Usj) : RepeatReport :=
  let targetVerses := extractVerses target
  ⟨"repeated_words_and_whitespace",
    targetVerses.flatMap fun kv =>
      let text := kv.2
      let words := jsSplitWs text
      let (consecutiveRepeats, repeatPositions) := repeatScan words 0
      let whitespacePositions := wsRunStarts text
      let excessiveWhitespace := !whitespacePositions.isEmpty
      if !consecutiveRepeats.isEmpty || excessiveWhitespace then
        [⟨kv.1, consecutiveRepeats, repeatPositions,
          if excessiveWhitespace then whitespacePositions else [],
          excessiveWhitespace,
          if !consecutiveRepeats.isEmpty then
            "Consecutive repeated words: " ++
              String.intercalate ", " (dedupFirst consecutiveRepeats [])
          else "Excessive whitespace detected"⟩]
      else []⟩

/-- An issue of `detectUnmatchedPunctuation`.  `verse` is `Option` because
the leftover-opening issues cite `openVerse`, which is `null` until a first
push happens. -/
structure PunctIssue where
  verse : Option String
  unmatched_punctuation : Char
  comment : String
deriving Repr, DecidableEq

/-- The default `PAIR_PUNCTUATION` table (the quote entries are commented
out in the source). -/
def defaultPairs : List (Char × Char) :=
  [('(', ')'), ('[', ']'), ('{', '}'), ('«', '»')]

/-- `PAIR_PUNCTUATION[char]` as a lookup in the pair table. -/
def pairLookup : List (Char × Char) → Char → Option Char
  | [], _ => none
  | p :: rest, c => if p.1 = c then some p.2 else pairLookup rest c

/-- Mutable state of the scan in `detectUnmatchedPunctuation`: the shared
stack of `{char, verse}` entries, the symmetric-character toggles, the
verse at which the stack last became non-empty, and the issues so far. -/
structure PState where
  stack : List (Char × String)
  toggles : List (Char × Bool)
  openVerse : Option String
  issues : List PunctIssue
deriving Repr, DecidableEq

/-- Boolean read of `toggles[char]` (`!undefined` is `true`, so a missing
entry reads as `false`). -/
def toggleGet (ts : List (Char × Bool)) (c : Char) : Bool :=
  ((ts.find? (fun p => p.1 == c)).map (·.2)).getD false

/-- `toggles[char] = b`. -/
def toggleSet : List (Char × Bool) → Char → Bool → List (Char × Bool)
  | [], c, b => [(c, b)]
  | p :: rest, c, b => if p.1 == c then (c, b) :: rest else p :: toggleSet rest c b

/-- The issue pushed for an unmatched closing character. -/
def closingIssue (key : String) (c : Char) : PunctIssue :=
  ⟨some key, c, String.push "Unmatched closing punctuation: " c⟩

/-- One character step of `detectUnmatchedPunctuation` (src/src/utils.js
lines 353-403): opening characters (symmetric ones via their toggle) push
on the shared stack, closing characters pop it and report a mismatch. -/
def procChar (cfg : List (Char × Char)) (key : String) (st : PState) (c : Char) :
    PState :=
  match pairLookup cfg c with
  | some close =>
    if close = c then
      let tNew := !toggleGet st.toggles c
      let ts := toggleSet st.toggles c tNew
      if tNew then
        { st with
            toggles := ts
            openVerse := if st.stack.isEmpty then some key else st.openVerse
            stack := (c, key) :: st.stack }
      else
        match st.stack with
        | [] => { st with toggles := ts, issues := st.issues ++ [closingIssue key c] }
        | last :: rest =>
          if last.1 = c then { st with toggles := ts, stack := rest }
          else
            { st with
                toggles := ts
                stack := rest
                issues := st.issues ++ [closingIssue key c] }
    else
      { st with
          openVerse := if st.stack.isEmpty then some key else st.openVerse
          stack := (c, key) :: st.stack }
  | none =>
    if c ∈ cfg.map (·.2) then
      match st.stack with
      | [] => { st with issues := st.issues ++ [closingIssue key c] }
      | last :: rest =>
        if pairLookup cfg last.1 = some c then { st with stack := rest }
        else { st with stack := rest, issues := st.issues ++ [closingIssue key c] }
    else st

/-- The double loop `for ([key, text] of verses) for (char of text)`. -/
def procVerses (cfg : List (Char × Char)) (verses : List (String × String))
    (st : PState) : PState :=
  verses.foldl (fun s kv => kv.2.data.foldl (procChar cfg kv.1) s) st

/-- The drain of the remaining stack (src/src/utils.js lines 407-420):
entries are popped and deduplicated by character; each distinct leftover
character yields one unmatched-opening issue attributed to `openVerse`. -/
def leftoverIssues (openVerse : Option String) : List (Char × String) → List Char →
    List PunctIssue
  | [], _ => []
  | e :: rest, seen =>
    if e.1 ∈ seen then leftoverIssues openVerse rest seen
    else
      ⟨openVerse, e.1, String.push "Unmatched opening punctuation: " e.1⟩ ::
        leftoverIssues openVerse rest (e.1 :: seen)

/-- A `{check, issues}` report of `detectUnmatchedPunctuation`. -/
structure PunctReport where
  check : String
  issues : List PunctIssue
deriving Repr, DecidableEq

/-- The scan of `detectUnmatchedPunctuation` over an already-extracted
verse map. -/
def detectUnmatchedPunctuationOn (cfg : List (Char × Char))
    (targetVerses : List (String × String)) : PunctReport :=
  let toggles0 := cfg.filterMap fun p => if p.1 = p.2 then some (p.1, false) else none
  let st := procVerses cfg targetVerses ⟨[], toggles0, none, []⟩
  ⟨"unmatched_punctuation",
    st.issues ++ (if st.stack.isEmpty then [] else leftoverIssues st.openVerse st.stack [])⟩

/-- `detectUnmatchedPunctuation` of src/src/utils.js; `none` for the
`pair_punctuation_list` argument selects the default table. -/
def detectUnmatchedPunctuation (target : Usj)
    (pair_punctuation_list : Option (List (Char × Char))) : PunctReport :=
  detectUnmatchedPunctuationOn (pair_punctuation_list.getD defaultPairs)
    (extractVerses target)

/-- A numeral with its first match offset, as produced by `matchAll`. -/
structure NumMatch where
  number : String
  position : Nat
deriving Repr, DecidableEq

/-- The matches of `/\b\d+\b/g`: maximal ASCII digit runs whose neighbours
are not word characters.  (`\d` does not match Eastern Arabic digits and
they are not `\w`, so they never constrain a boundary.) -/
def numMatches (s : String) : List NumMatch :=
  let cs := s.data
  (List.range cs.length).filterMap fun i =>
    let run := (cs.drop i).takeWhile isAsciiDigit
    if (i = 0 ∨ isWordChar (cs.getD (i - 1) ' ') = false) ∧ run ≠ [] ∧
        isWordChar (cs.getD (i + run.length) ' ') = false
    then some ⟨String.mk run, i⟩ else none

/-- `sourceNumbers.find(item => item.number === num)?.position || -1`: note
that a genuine position `0` is falsy and collapses to `-1`. -/
def numPos (l : List NumMatch) (num : String) : Int :=
  match l.find? (fun m => m.number == num) with
  | some m => if m.position = 0 then -1 else (m.position : Int)
  | none => -1

/-- A numeral together with the position reported for it. -/
structure NumEntry where
  number : String
  position : Int
deriving Repr, DecidableEq

/-- An issue of `detectNumberMismatches`. -/
structure NumberIssue where
  verse : String
  verse_text : String
  missing_numbers : List NumEntry
  extra_numbers : List NumEntry
  comment : String
deriving Repr, DecidableEq

/-- A `{check, issues}` report of `detectNumberMismatches`. -/
structure NumberReport where
  check : String
  issues : List NumberIssue
deriving Repr, DecidableEq

/-- `detectNumberMismatches` of src/src/utils.js: per source verse key,
the set difference of the `\b\d+\b` matches in both directions. -/
def detectNumberMismatches (source target : Usj) : NumberReport :=
  let sourceVerses := extractVerses source
  let targetVerses := extractVerses target
  ⟨"numbers_check::mismatches",
    sourceVerses.flatMap fun kv =>
      let sourceText := kv.2
      let sourceNumbers := numMatches sourceText
      let targetText := (objGet targetVerses kv.1).getD ""
      let targetNumbers := numMatches targetText
      let sourceSet := dedupFirst (sourceNumbers.map (·.number)) []
      let targetSet := dedupFirst (targetNumbers.map (·.number)) []
      let missingNumbers := sourceSet.filter (fun n => !targetSet.contains n)
      let extraNumbers := targetSet.filter (fun n => !sourceSet.contains n)
      if !missingNumbers.isEmpty || !extraNumbers.isEmpty then
        [⟨kv.1, sourceText,
          missingNumbers.map (fun n => ⟨n, numPos sourceNumbers n⟩),
          extraNumbers.map (fun n => ⟨n, numPos targetNumbers n⟩),
          "Number mismatches detected. Missing: [" ++
            String.intercalate ", " missingNumbers ++ "], Extra: [" ++
            String.intercalate ", " extraNumbers ++ "]"⟩]
      else []⟩

/-- The `parameters` object of a recipe entry. -/
structure RecipeParams where
  short_threshold : Option Int := none
deriving Repr, DecidableEq

/-- One check descriptor of a recipe, as consumed by `runChecks`. -/
structure RecipeEntry where
  name : String
  readName : Option String := none
  description : Option String := none
  level : Option String := none
  enabled : Bool := false
  parameters : Option RecipeParams := none
deriving Repr, DecidableEq

/-- `check.parameters?.short_threshold || 20` (`0` is falsy). -/
def thresholdOf (ck : RecipeEntry) : Int :=
  match ck.parameters with
  | some p =>
    match p.short_threshold with
    | some t => if t = 0 then 20 else t
    | none => 20
  | none => 20

/-- One issue of any check, for the heterogeneous `issues` array of a
report entry. -/
inductive CheckIssue where
  | stats (i : StatsIssue)
  | integrity (i : IntegrityIssue)
  | missing (i : MissingIssue)
  | repeated (i : RepeatIssue)
  | punct (i : PunctIssue)
deriving Repr, DecidableEq

/-- One entry pushed onto the `report` array by `runChecks`. -/
structure ReportEntry where
  name : String
  readName : Option String
  description : Option String
  level : Option String
  issues : List CheckIssue
deriving Repr, DecidableEq

/-- The `{checks: report}` object returned by `runChecks`. -/
structure RunReport where
  checks : List ReportEntry
deriving Repr, DecidableEq

/-- The `switch (check.name)` of `runChecks` (src/unnamed/part_001 lines
17-43).  `none` is the `default:` branch (warn and continue).  The
`chapterverse::missing_verses` case calls `detectMissingVerses`, which the
module never imports (its import list on line 1 omits it), so reaching
that case throws a `ReferenceError`; checks whose extraction throws
propagate their own error. -/
def dispatchCheck (source target : Usj) (ck : RecipeEntry) :
    Option (Except String (List CheckIssue)) :=
  if ck.name = "versestats::verse_stats" then
    some (.ok ((detectShortLongVerses source target (thresholdOf ck)).map .stats))
  else if ck.name = "chapterverse::integrity_check" then
    some ((checkChapterVerseIntegrity source target).map fun r => r.issues.map .integrity)
  else if ck.name = "chapterverse::missing_verses" then
    some (.error "ReferenceError: detectMissingVerses is not defined")
  else if ck.name = "textquality::repeated_words_whitespace" then
    some (.ok ((detectRepeatedWordsAndWhitespace target).issues.map .repeated))
  else if ck.name = "textquality::unmatched_punctuation" then
    some (.ok ((detectUnmatchedPunctuation target none).issues.map .punct))
  else none

/-- The `for (const check of recipe)` loop of `runChecks`: disabled and
unknown checks are skipped, a thrown error aborts the loop, and a result
is pushed only when `result.issues.length > 0`. -/
def runChecksGo (source target : Usj) : List RecipeEntry →
    Except String (List ReportEntry)
  | [] => .ok []
  | ck :: rest =>
    if !ck.enabled then runChecksGo source target rest
    else
      match dispatchCheck source target ck with
      | none => runChecksGo source target rest
      | some (.error e) => .error e
      | some (.ok issues) =>
        if issues.length > 0 then
          (runChecksGo source target rest).map
            (⟨ck.name, ck.readName, ck.description, ck.level, issues⟩ :: ·)
        else runChecksGo source target rest

/-- `runChecks` of src/unnamed/part_001.  The source has no `try`/`catch`:
an exception thrown by any dispatched check propagates and no report is
returned. -/
def runChecks (source target : Usj) (recipe : List RecipeEntry) :
    Except String RunReport :=
  (runChecksGo source target recipe).map RunReport.mk

/-- "Correctly nested sequence of the configured punctuation pairs": the
character stream is empty, a non-pair character, a configured pair
wrapping a nested body, or the concatenation of two nested streams. -/
inductive Nested (cfg : List (Char × Char)) : List Char → Prop where
  | nil : Nested cfg []
  | plain {c : Char} : pairLookup cfg c = none → c ∉ cfg.map (·.2) → Nested cfg [c]
  | wrap {o close : Char} {body : List Char} : pairLookup cfg o = some close →
      Nested cfg body → Nested cfg (o :: body ++ [close])
  | app {s t : List Char} : Nested cfg s → Nested cfg t → Nested cfg (s ++ t)

/-- The character stream of an extracted verse map, concatenated in its
(chapter-then-verse, i.e. document) order, with the verse key each
character is attributed to. -/
def versesKeyChars (verses : List (String × String)) : List (String × Char) :=
  verses.flatMap fun kv => kv.2.data.map fun c => (kv.1, c)

/-- The concatenated character stream of an extracted verse map. -/
def versesChars (verses : List (String × String)) : List Char :=
  (versesKeyChars verses).map (·.2)

/-- Erase the footnote / cross-reference markers `f`, `x`, `f*`, `x*` from
a marker field. -/
def eraseFXMarker (m : Option String) : Option String :=
  if m == some "f" || m == some "x" || m == some "f*" || m == some "x*" then none
  else m

mutual

/-- Erase every footnote / cross-reference marker in a node. -/
def eraseFXNode : Node → Node
  | .text s => .text s
  | .node m num ty content => .node (eraseFXMarker m) num ty (eraseFXList content)

/-- Erase every footnote / cross-reference marker in a content list. -/
def eraseFXList : List Node → List Node
  | [] => []
  | n :: rest => eraseFXNode n :: eraseFXList rest

end

/-- Shorthand for a chapter-marker node. -/
def cN (n : String) : Node := .node (some "c") (some n) none []

/-- Shorthand for a verse-marker node. -/
def vN (n : String) : Node := .node (some "v") (some n) none []

/-- Shorthand for a raw text node. -/
def tN (s : String) : Node := .text s

/-- A document whose chapter 1 carries the verse numbers 1, 5, 3, 4. -/
def c1tgtDoc : Usj := ⟨[cN "1", vN "1", vN "5", vN "3", vN "4"]⟩

/-- A trivial well-formed companion document. -/
def c1srcDoc : Usj := ⟨[cN "1", vN "1"]⟩

/-- A document whose single verse 1:1 is the text "(abc]". -/
def c2doc : Usj := ⟨[cN "1", vN "1", tN "(abc]"]⟩

/-- A document whose verse 1:1 contains a footnote region with the text
"NOTE" between the `f` open and the `f*` close, in the flat layout
`USJHandler.traverse` visits. -/
def c3doc : Usj :=
  ⟨[cN "1", vN "1", tN "hello ", .node (some "f") none (some "note") [tN "NOTE"],
    .node (some "f*") none none []]⟩

/-- A two-chapter document: verse 1:1 has text "A", verse 2:1 has text "B". -/
def c4doc : Usj := ⟨[cN "1", vN "1", tN "A", cN "2", vN "1", tN "B"]⟩

/-- One correctly nested pair of every configured bracket type in verse 1:1. -/
def c5docA : Usj := ⟨[cN "1", vN "1", tN "()[]{}«»"]⟩

/-- A pair whose opener is in verse 1:1 and whose closer is in verse 1:2. -/
def c5docB : Usj := ⟨[cN "1", vN "1", tN "(start", vN "2", tN "end)"]⟩

/-- A one-verse document with the nested text "(a)". -/
def c5docW : Usj := ⟨[cN "1", vN "1", tN "(a)"]⟩

/-- Source document for the missing-verse examples: chapter 1 has verses
1 and 2. -/
def c6srcDoc : Usj := ⟨[cN "1", vN "1", tN "one", vN "2", tN "two"]⟩

/-- Target document for the missing-verse examples: chapter 1 has only
verse 1, and a chapter 9 with verse 7 that exists only in the target. -/
def c6tgtDoc : Usj := ⟨[cN "1", vN "1", tN "uno", cN "9", vN "7", tN "extra"]⟩

/-- A recipe enabling `chapterverse::missing_verses` and then
`textquality::unmatched_punctuation`. -/
def c7recipe : List RecipeEntry :=
  [{ name := "chapterverse::missing_verses", enabled := true },
   { name := "textquality::unmatched_punctuation", enabled := true }]

/-- A source verse containing the Eastern Arabic numeral `١٢٣`. -/
def c8srcDoc : Usj := ⟨[cN "1", vN "1", tN "see ١٢٣ there"]⟩

/-- A target verse with no numeral at all. -/
def c8tgtDoc : Usj := ⟨[cN "1", vN "1", tN "nothing"]⟩

/-- Source/target pair with ASCII numerals 42 vs 99 at verse 1:1. -/
def c8wSrcDoc : Usj := ⟨[cN "1", vN "1", tN "a 42 b"]⟩

/-- See `c8wSrcDoc`. -/
def c8wTgtDoc : Usj := ⟨[cN "1", vN "1", tN "a 99 b"]⟩

/-- A target document whose only verse has the unmatched text "(oops]". -/
def c7tgtDoc : Usj := ⟨[cN "1", vN "1", tN "(oops]"]⟩

/-- The issue `detectNumberMismatches` reports for `c8wSrcDoc`/`c8wTgtDoc`. -/
def c8wIssue : NumberIssue :=
  ⟨"1:1", "a 42 b", [⟨"42", 2⟩], [⟨"99", 2⟩],
    "Number mismatches detected. Missing: [42], Extra: [99]"⟩

/-- A document whose first marker is a verse marker, before any chapter. -/
def c9doc : Usj := ⟨[vN "1"]⟩

/-- The issue `detectMissingVerses` reports for `c6srcDoc`/`c6tgtDoc`. -/
def c6issue : MissingIssue :=
  ⟨some 1, some 2, some "two", "Target is missing verse 2 in chapter 1."⟩

/-- The single report entry `runChecks` produces for
`c6srcDoc`/`c10tgtDoc`/`c10recipe`. -/
def c10entry : ReportEntry :=
  ⟨"textquality::repeated_words_whitespace", none, none, none,
    [.repeated ⟨"1:1", ["go"], [0], [], false, "Consecutive repeated words: go"⟩]⟩

/-- Folding the punctuation step over an attributed character stream. -/
def foldKC (kcs : List (String × Char)) (st : PState) : PState :=
  kcs.foldl (fun s kc => procChar defaultPairs kc.1 s kc.2) st

/-- Membership in a conditional singleton list. -/
theorem mem_if_singleton {α : Type} {b : Prop} [Decidable b] {a x : α} :
    (x ∈ if b then [a] else []) ↔ b ∧ x = a := by
  split
  · simp_all [eq_comm]
  · simp_all

/-- C1, counterexample.  On the verse sequence 1, 5, 3, 4 in one chapter the
checker flags verse 3 (below its predecessor 5) but not verse 4, although 4
is below the earlier maximum 5 — refuting the every-verse-below-the-maximum
reading of the claim. -/
theorem c1_counterexample :
    (checkChapterVerseIntegrity c1srcDoc c1tgtDoc).map
        (fun r =>
          ((r.issues.any fun is => is.type == "out_of_order" && is.verse == some (some 3)),
           (r.issues.any fun is => is.type == "out_of_order" && is.verse == some (some 4))))
      = Except.ok (true, false) := by
  rfl

/-- C2, counterexample.  On the single verse "(abc]" no issue at all cites
the character '(' — the mismatched pop consumes the opening parenthesis, so
the unmatched-opening issue the claim requires is never emitted. -/
theorem c2_counterexample :
    ((detectUnmatchedPunctuation c2doc none).issues.any
        fun is => is.unmatched_punctuation == '(') = false := by
  rfl

/-- C2, amended.  On the single verse "(abc]" the checker produces exactly
one issue: the unmatched-closing issue for ']' attributed to verse 1:1; the
'(' is popped by the mismatched closing bracket and never reported. -/
theorem c2_single_closing_issue :
    detectUnmatchedPunctuation c2doc none =
      ⟨"unmatched_punctuation",
        [⟨some "1:1", ']', "Unmatched closing punctuation: ]"⟩]⟩ := by
  rfl

/-- C3, counterexample.  In `c3doc` the text "NOTE" lies between the `f`
open marker and the `f*` close marker, yet the extraction used by every
checker includes it in the verse value. -/
theorem c3_counterexample :
    extractVerses c3doc = [("1:1", "hello NOTE")] := by
  rfl

/-- C4 (code bug).  On a document whose chapter 1 verse 1 has text "A", the
next chapter marker resets the buffer without flushing it: the returned map
has no "1:1" key at all, losing the text of the last verse of the chapter. -/
theorem c4_chapter_marker_discards_buffer :
    extractVerses c4doc = [("2:1", "B")] := by
  rfl

/-- C7, counterexample.  With `chapterverse::missing_verses` enabled before
`textquality::unmatched_punctuation`, `runChecks` throws (the orchestrator
module never imports `detectMissingVerses`) and returns no report at all,
although the sibling punctuation check would have found an issue. -/
theorem c7_counterexample :
    runChecks c6srcDoc c7tgtDoc c7recipe =
        Except.error "ReferenceError: detectMissingVerses is not defined" ∧
      (detectUnmatchedPunctuation c7tgtDoc none).issues ≠ [] := by
  exact ⟨rfl, by decide⟩

/-- Erasing the `f`/`x`/`f*`/`x*` markers of a field does not change
whether it compares equal to `some "c"`. -/
theorem eraseFXMarker_beq_c (m : Option String) :
    (eraseFXMarker m == some "c") = (m == some "c") := by
  unfold eraseFXMarker
  split
  · next h =>
    simp only [Bool.or_eq_true, beq_iff_eq] at h
    rcases h with ((h | h) | h) | h <;> subst h <;> rfl
  · rfl

/-- Erasing the `f`/`x`/`f*`/`x*` markers of a field does not change
whether it compares equal to `some "v"`. -/
theorem eraseFXMarker_beq_v (m : Option String) :
    (eraseFXMarker m == some "v") = (m == some "v") := by
  unfold eraseFXMarker
  split
  · next h =>
    simp only [Bool.or_eq_true, beq_iff_eq] at h
    rcases h with ((h | h) | h) | h <;> subst h <;> rfl
  · rfl

/-- Marker erasure does not change the flattened inline text of a `char`
node's content. -/
theorem jsJoin_eraseFX : (l : List Node) → jsJoin (eraseFXList l) = jsJoin l
  | [] => rfl
  | .text s :: rest => by
    simp only [eraseFXList, eraseFXNode, jsJoin, jsJoin_eraseFX rest]
  | .node m num ty content :: rest => by
    simp only [eraseFXList, eraseFXNode, jsJoin, jsJoin_eraseFX rest]

mutual

/-- The verse-text traversal is invariant under erasure of the footnote /
cross-reference markers in one node: the extraction only inspects markers
through the `c` and `v` comparisons. -/
theorem evNode_eraseFX : (n : Node) → (st : EVState) →
    evNode st (eraseFXNode n) = evNode st n
  | .text _, _ => rfl
  | .node m num ty content, st => by
    simp only [eraseFXNode, evNode, eraseFXMarker_beq_c, eraseFXMarker_beq_v,
      jsJoin_eraseFX, evList_eraseFX content st]

/-- The verse-text traversal is invariant under erasure of the footnote /
cross-reference markers in a content list. -/
theorem evList_eraseFX : (l : List Node) → (st : EVState) →
    evList st (eraseFXList l) = evList st l
  | [], _ => rfl
  | n :: rest, st => by
    simp only [eraseFXList, evList, evNode_eraseFX n st]
    exact evList_eraseFX rest (evNode st n)

end

/-- C3, amended.  The verse-text extraction used by the checkers performs
no footnote/cross-reference exclusion at all: erasing every `f`, `x`, `f*`,
`x*` marker from a document leaves `extractVerses` unchanged, i.e. those
markers are transparent containers whose text is included. -/
theorem c3_footnote_markers_transparent (usj : Usj) :
    extractVerses ⟨eraseFXList usj.content⟩ = extractVerses usj := by
  unfold extractVerses
  rw [evList_eraseFX]

/-- C9.  If a `v` marker carrying a number occurs in the traversal order
before any `c` marker, `extractChapterVerses` reads
`chapters[undefined].push`, a runtime `TypeError`. -/
theorem c9_verse_before_chapter_throws (usj : Usj) (pre post : List Node) (n : Node)
    (hflat : flatList usj.content = pre ++ n :: post) (hv : isVNum n = true)
    (hpre : ∀ m ∈ pre, m.markerOf ≠ some "c") :
    extractChapterVerses usj = Except.error cvTypeError := by
  unfold extractChapterVerses
  rw [hflat]
  clear hflat
  induction pre with
  | nil =>
    have hc : isCNum n = false := by
      simp only [isVNum, Bool.and_eq_true, beq_iff_eq] at hv
      simp [isCNum, hv.1]
    simp [exChGo, hc, hv]
  | cons m rest ih =>
    have hm : m.markerOf ≠ some "c" := hpre m (by simp)
    have hc : isCNum m = false := by
      simp only [isCNum, Bool.and_eq_true, beq_iff_eq]
      simp [hm]
    by_cases hvm : isVNum m = true
    · simp [exChGo, hc, hvm]
    · simp only [List.cons_append, exChGo, hc, Bool.false_eq_true, if_false,
        hvm, eq_self_iff_true]
      simp only [Bool.not_eq_true] at hvm
      simp [hvm]
      exact ih (fun x hx => hpre x (by simp [hx]))

/-- C9, witness: a document beginning with a bare `v 1` marker makes
`extractChapterVerses` throw. -/
theorem c9_witness : extractChapterVerses c9doc = Except.error cvTypeError :=
  c9_verse_before_chapter_throws c9doc [] [] (vN "1") rfl rfl (by simp)

/-- C8, counterexample.  The source verse contains the Eastern Arabic
numeral string "١٢٣" — which the repository's own `extractNumbers`
recognizes — and the target has no numeral, yet `detectNumberMismatches`
reports nothing: alternate-script numerals never participate. -/
theorem c8_counterexample :
    (detectNumberMismatches c8srcDoc c8tgtDoc).issues = [] ∧
      extractNumbers "١٢٣" = ["1", "2", "3"] := by
  exact ⟨rfl, rfl⟩

/-- A recipe enabling only the repeated-words check. -/
def c10recipe : List RecipeEntry :=
  [{ name := "textquality::repeated_words_whitespace", enabled := true },
   { name := "textquality::unmatched_punctuation", enabled := true }]

/-- A target document with one repeated word and balanced punctuation: the
enabled punctuation check finds nothing and must be absent from the report. -/
def c10tgtDoc : Usj := ⟨[cN "1", vN "1", tN "go go now"]⟩

/-- C6.  Every issue of `detectMissingVerses` cites a chapter entry of the
source index and a verse number present in the source's list for that
chapter but absent from the target's list for the same chapter key: verses
or chapters present only in the target can never be reported. -/
theorem c6_missing_only_source_verses (src tgt : Usj) (rep : MissingReport)
    (hok : detectMissingVerses src tgt = Except.ok rep) :
    ∀ is ∈ rep.issues, ∃ srcCh tgtCh,
      extractChapterVerses src = Except.ok srcCh ∧
      extractChapterVerses tgt = Except.ok tgtCh ∧
      ∃ p ∈ srcCh, is.chapter = parseIntJS p.1 ∧ is.verse ∈ p.2 ∧
        is.verse ∉ (objGet tgtCh p.1).getD [] := by
  intro is his
  unfold detectMissingVerses at hok
  cases hsrc : extractChapterVerses src with
  | error e => rw [hsrc] at hok; exact absurd hok (by simp [Bind.bind, Except.bind])
  | ok srcCh =>
    cases htgt : extractChapterVerses tgt with
    | error e => rw [hsrc, htgt] at hok; exact absurd hok (by simp [Bind.bind, Except.bind])
    | ok tgtCh =>
      rw [hsrc, htgt] at hok
      simp only [Bind.bind, Except.bind, pure, Except.pure, Except.ok.injEq] at hok
      subst hok
      simp only [List.mem_flatMap] at his
      obtain ⟨p, hp, hmem⟩ := his
      refine ⟨srcCh, tgtCh, rfl, rfl, p, hp, ?_⟩
      unfold missingIssuesFor at hmem
      rw [List.mem_map] at hmem
      obtain ⟨v, hv, rfl⟩ := hmem
      rw [List.mem_filter] at hv
      obtain ⟨hvmem, hvnot⟩ := hv
      refine ⟨rfl, hvmem, ?_⟩
      simpa using hvnot

/-- C6, witness: on `c6srcDoc`/`c6tgtDoc` the reported issue (source verse
1:2 missing from the target) satisfies the asymmetry property. -/
theorem c6_witness :
    ∃ srcCh tgtCh,
      extractChapterVerses c6srcDoc = Except.ok srcCh ∧
      extractChapterVerses c6tgtDoc = Except.ok tgtCh ∧
      ∃ p ∈ srcCh, c6issue.chapter = parseIntJS p.1 ∧ c6issue.verse ∈ p.2 ∧
        c6issue.verse ∉ (objGet tgtCh p.1).getD [] :=
  c6_missing_only_source_verses c6srcDoc c6tgtDoc ⟨"missing_verses", [c6issue]⟩
    rfl c6issue (by simp)

/-- The loop of `runChecks` never pushes a report entry with an empty
issue list. -/
theorem runChecksGo_entries_nonempty (s t : Usj) :
    ∀ (recipe : List RecipeEntry) (l : List ReportEntry),
      runChecksGo s t recipe = Except.ok l → ∀ e ∈ l, e.issues ≠ []
  | [], l, hok => by
    simp only [runChecksGo, Except.ok.injEq] at hok
    subst hok
    intro e he
    exact absurd he (by simp)
  | ck :: rest, l, hok => by
    rw [runChecksGo] at hok
    by_cases hen : (!ck.enabled) = true
    · rw [if_pos hen] at hok
      exact runChecksGo_entries_nonempty s t rest l hok
    · rw [if_neg hen] at hok
      cases hd : dispatchCheck s t ck with
      | none =>
        rw [hd] at hok
        exact runChecksGo_entries_nonempty s t rest l hok
      | some res =>
        rw [hd] at hok
        cases res with
        | error e => exact absurd hok (by simp)
        | ok issues =>
          simp only at hok
          by_cases hlen : issues.length > 0
          · rw [if_pos hlen] at hok
            cases hrest : runChecksGo s t rest with
            | error e => rw [hrest] at hok; exact absurd hok (by simp [Except.map])
            | ok l2 =>
              rw [hrest] at hok
              simp only [Except.map, Except.ok.injEq] at hok
              subst hok
              intro e he
              rcases List.mem_cons.mp he with rfl | htail
              · simpa using List.ne_nil_of_length_pos hlen
              · exact runChecksGo_entries_nonempty s t rest l2 hrest e htail
          · rw [if_neg hlen] at hok
            exact runChecksGo_entries_nonempty s t rest l hok

/-- C10.  When `runChecks` returns a report, every entry of its check list
has a non-empty issue list: an enabled check that found nothing is absent
from the report, never present with an empty list. -/
theorem c10_report_entries_nonempty (s t : Usj) (recipe : List RecipeEntry)
    (rep : RunReport) (hok : runChecks s t recipe = Except.ok rep) :
    ∀ e ∈ rep.checks, e.issues ≠ [] := by
  unfold runChecks at hok
  cases hgo : runChecksGo s t recipe with
  | error e => rw [hgo] at hok; exact absurd hok (by simp [Except.map])
  | ok l =>
    rw [hgo] at hok
    simp only [Except.map, Except.ok.injEq] at hok
    subst hok
    exact runChecksGo_entries_nonempty s t recipe l hgo

/-- C10, witness: on `c6srcDoc`/`c10tgtDoc` with both text-quality checks
enabled, the punctuation check finds nothing and is absent; the only entry
is the repeated-words one and its issue list is non-empty. -/
theorem c10_witness : c10entry.issues ≠ [] :=
  c10_report_entries_nonempty c6srcDoc c10tgtDoc c10recipe ⟨[c10entry]⟩ rfl
    c10entry (by simp)

/-- An enabled `chapterverse::missing_verses` entry makes the orchestrator
loop end in an error. -/
theorem runChecksGo_missing_verses_errors (s t : Usj) :
    ∀ recipe : List RecipeEntry,
      (∃ ck ∈ recipe, ck.enabled = true ∧ ck.name = "chapterverse::missing_verses") →
      ∃ e, runChecksGo s t recipe = Except.error e
  | [], h => absurd h (by simp)
  | ck :: rest, h => by
    obtain ⟨ck₀, hmem, hen, hname⟩ := h
    rcases List.mem_cons.mp hmem with rfl | htail
    · refine ⟨"ReferenceError: detectMissingVerses is not defined", ?_⟩
      rw [runChecksGo, if_neg (by simp [hen])]
      have hd : dispatchCheck s t ck₀ =
          some (.error "ReferenceError: detectMissingVerses is not defined") := by
        rw [dispatchCheck, hname]
        rfl
      rw [hd]
    · obtain ⟨e, he⟩ := runChecksGo_missing_verses_errors s t rest ⟨ck₀, htail, hen, hname⟩
      rw [runChecksGo]
      by_cases henck : (!ck.enabled) = true
      · exact ⟨e, by rw [if_pos henck]; exact he⟩
      · rw [if_neg henck]
        cases hd : dispatchCheck s t ck with
        | none => exact ⟨e, he⟩
        | some res =>
          cases res with
          | error msg => exact ⟨msg, rfl⟩
          | ok issues =>
            simp only
            by_cases hlen : issues.length > 0
            · rw [if_pos hlen, he]
              exact ⟨e, rfl⟩
            · rw [if_neg hlen]
              exact ⟨e, he⟩

/-- C7, amended.  `runChecks` has no per-check exception handling: any
recipe with an enabled `chapterverse::missing_verses` entry makes the whole
run throw (the orchestrator module calls `detectMissingVerses` without
importing it), so no sibling check's result is ever returned. -/
theorem c7_check_error_aborts_siblings (s t : Usj) (recipe : List RecipeEntry)
    (h : ∃ ck ∈ recipe, ck.enabled = true ∧ ck.name = "chapterverse::missing_verses") :
    ∃ e, runChecks s t recipe = Except.error e := by
  obtain ⟨e, he⟩ := runChecksGo_missing_verses_errors s t recipe h
  exact ⟨e, by unfold runChecks; rw [he]; rfl⟩

/-- C7, witness: the concrete recipe of `c7recipe` aborts `runChecks`. -/
theorem c7_witness : ∃ e, runChecks c6srcDoc c7tgtDoc c7recipe = Except.error e :=
  c7_check_error_aborts_siblings c6srcDoc c7tgtDoc c7recipe
    ⟨⟨"chapterverse::missing_verses", none, none, none, true, none⟩,
      by simp [c7recipe], rfl, rfl⟩

/-- First-occurrence deduplication only keeps elements of the input. -/
theorem mem_dedupFirst : ∀ (l seen : List String) (x : String),
    x ∈ dedupFirst l seen → x ∈ l
  | a :: rest, seen, x => by
    rw [dedupFirst]
    by_cases hm : a ∈ seen
    · rw [if_pos hm]
      intro h
      exact List.mem_cons_of_mem a (mem_dedupFirst rest seen x h)
    · rw [if_neg hm]
      intro h
      rcases List.mem_cons.mp h with rfl | h2
      · exact List.mem_cons_self _ _
      · exact List.mem_cons_of_mem a (mem_dedupFirst rest (a :: seen) x h2)
  | [], _, x => by
    rw [dedupFirst]
    intro h
    exact absurd h (by simp)

/-- Every `\b\d+\b` match is a string of ASCII digits. -/
theorem numMatches_all_digits (s : String) (m : NumMatch) (h : m ∈ numMatches s) :
    m.number.data.all isAsciiDigit = true := by
  unfold numMatches at h
  rw [List.mem_filterMap] at h
  obtain ⟨i, _, hsome⟩ := h
  dsimp only at hsome
  split at hsome
  · rw [Option.some.injEq] at hsome
    subst hsome
    rw [List.all_eq_true]
    intro c hc
    exact List.mem_takeWhile_imp hc
  · exact absurd hsome (by simp)

/-- C8, amended.  `detectNumberMismatches` compares only the `\b\d+\b`
matches of source and target text: every numeral it reports, missing or
extra, is a string of ASCII digits, so a numeral written in the Eastern
Arabic script never participates in the comparison (the `extractNumbers`
helper, which does recognize that script, is not used by this check). -/
theorem c8_reported_numerals_ascii_only (src tgt : Usj) (is : NumberIssue)
    (h : is ∈ (detectNumberMismatches src tgt).issues) :
    (∀ m ∈ is.missing_numbers, m.number.data.all isAsciiDigit = true) ∧
    (∀ m ∈ is.extra_numbers, m.number.data.all isAsciiDigit = true) := by
  unfold detectNumberMismatches at h
  simp only [List.mem_flatMap] at h
  obtain ⟨kv, hkv, hmem⟩ := h
  split at hmem
  · rw [List.mem_singleton] at hmem
    subst hmem
    constructor
    · intro m hm
      simp only [List.mem_map] at hm
      obtain ⟨n, hn, rfl⟩ := hm
      rw [List.mem_filter] at hn
      obtain ⟨mt, hmt, rfl⟩ := List.mem_map.mp
        (mem_dedupFirst _ _ _ hn.1)
      exact numMatches_all_digits _ mt hmt
    · intro m hm
      simp only [List.mem_map] at hm
      obtain ⟨n, hn, rfl⟩ := hm
      rw [List.mem_filter] at hn
      obtain ⟨mt, hmt, rfl⟩ := List.mem_map.mp
        (mem_dedupFirst _ _ _ hn.1)
      exact numMatches_all_digits _ mt hmt
  · exact absurd hmem (by simp)

/-- C8, witness: the "42" reported missing for `c8wSrcDoc`/`c8wTgtDoc` is
an ASCII digit string. -/
theorem c8_witness : (NumEntry.mk "42" 2).number.data.all isAsciiDigit = true :=
  (c8_reported_numerals_ascii_only c8wSrcDoc c8wTgtDoc c8wIssue (by decide)).1
    ⟨"42", 2⟩ (by decide)

/-- `getLast?.getD` peels one cons: the default shifts to the head. -/
theorem getLastD_cons {α : Type} : ∀ (l : List α) (x d : α),
    (x :: l).getLast?.getD d = l.getLast?.getD x
  | [], _, _ => rfl
  | y :: ys, x, d => by
    rw [List.getLast?_cons_cons]
    exact (getLastD_cons ys y d).trans (getLastD_cons ys y x).symm

/-- The verse-level `out_of_order` issues of the inner verse loop: an issue
for chapter `c` and verse value `v` is present exactly when the chapter
matches and some occurrence of `v` in the list is strictly below its
immediate predecessor (the initial `lastVerse` for the first element). -/
theorem valVerses_oo (tt : String) (verses : List (String × String)) (c : JSInt)
    (v : JSInt) : ∀ (ch : JSInt) (vs : List JSInt) (seen : List String) (lv : JSInt),
    (∃ is ∈ (valVerses tt ch verses vs seen lv).1,
        is.type = "out_of_order" ∧ is.chapter = c ∧ is.verse = some v) ↔
      (ch = c ∧ ∃ l₁ l₂, vs = l₁ ++ v :: l₂ ∧ jsLt v (l₁.getLast?.getD lv) = true)
  | ch, [], seen, lv => by
    constructor
    · rintro ⟨is, his, _⟩
      exact absurd his (by simp [valVerses])
    · rintro ⟨_, l₁, l₂, heq, _⟩
      exact absurd heq.symm (by simp)
  | ch, x :: rest, seen, lv => by
    rw [valVerses]
    dsimp only
    constructor
    · rintro ⟨is, his, hty, hch, hvs⟩
      rcases List.mem_append.mp his with h12 | hrec
      · rcases List.mem_append.mp h12 with h1 | h2
        · rw [mem_if_singleton] at h1
          obtain ⟨hlt, rfl⟩ := h1
          rw [Option.some.injEq] at hvs
          exact ⟨hch, [], rest, by simp [hvs], by rw [hvs] at hlt; exact hlt⟩
        · rw [mem_if_singleton] at h2
          obtain ⟨_, rfl⟩ := h2
          simp at hty
      · obtain ⟨hc, l₁, l₂, heq, hlt⟩ :=
          (valVerses_oo tt verses c v ch rest _ x).mp ⟨is, hrec, hty, hch, hvs⟩
        exact ⟨hc, x :: l₁, l₂, by rw [heq, List.cons_append],
          by rw [getLastD_cons]; exact hlt⟩
    · rintro ⟨hc, l₁, l₂, heq, hlt⟩
      cases l₁ with
      | nil =>
        rw [List.nil_append] at heq
        injection heq with hxv hrest
        rw [← hxv] at hlt
        exact ⟨⟨"out_of_order", ch, some x,
            objGet verses (jsIntStr ch ++ ":" ++ jsIntStr x),
            tt ++ " has out-of-order verse " ++ jsIntStr x ++ " in chapter " ++
              jsIntStr ch ++ "."⟩,
          List.mem_append.mpr (Or.inl (List.mem_append.mpr
            (Or.inl (mem_if_singleton.mpr ⟨hlt, rfl⟩)))), rfl, hc, by rw [hxv]⟩
      | cons a l₁' =>
        rw [List.cons_append] at heq
        injection heq with hxa hrest
        subst hxa
        rw [getLastD_cons] at hlt
        obtain ⟨is, hmem, hP⟩ :=
          (valVerses_oo tt verses c v ch rest _ x).mpr ⟨hc, l₁', l₂, hrest, hlt⟩
        exact ⟨is, List.mem_append.mpr (Or.inr hmem), hP⟩

/-- The verse-level `out_of_order` issues of the chapter loop, for any
carried `seen` set and `lastChapter`. -/
theorem valChapters_oo (tt : String) (verses : List (String × String)) (c : JSInt)
    (v : JSInt) : ∀ (idx : List (String × List JSInt)) (seen : List String) (lc : JSInt),
    (∃ is ∈ valChapters tt verses idx seen lc,
        is.type = "out_of_order" ∧ is.chapter = c ∧ is.verse = some v) ↔
      ∃ p ∈ idx, parseIntJS p.1 = c ∧
        ∃ l₁ l₂, p.2 = l₁ ++ v :: l₂ ∧ jsLt v (l₁.getLast?.getD (some 0)) = true
  | [], seen, lc => by simp [valChapters]
  | (chS, vs) :: rest, seen, lc => by
    rw [valChapters]
    constructor
    · rintro ⟨is, his, hP⟩
      rcases List.mem_append.mp his with h01 | hrec
      · rcases List.mem_append.mp h01 with h0 | h1
        · rw [mem_if_singleton] at h0
          obtain ⟨_, rfl⟩ := h0
          exact absurd hP.2.2 (by simp)
        · obtain ⟨hc, l₁, l₂, heq, hlt⟩ :=
            (valVerses_oo tt verses c v (parseIntJS chS) vs seen (some 0)).mp ⟨is, h1, hP⟩
          exact ⟨(chS, vs), List.mem_cons_self _ _, hc, l₁, l₂, heq, hlt⟩
      · obtain ⟨p, hp, hres⟩ := (valChapters_oo tt verses c v rest _ _).mp ⟨is, hrec, hP⟩
        exact ⟨p, List.mem_cons_of_mem _ hp, hres⟩
    · rintro ⟨p, hp, hc, l₁, l₂, heq, hlt⟩
      rcases List.mem_cons.mp hp with rfl | htail
      · obtain ⟨is, hmem, hP⟩ :=
          (valVerses_oo tt verses c v (parseIntJS chS) vs seen (some 0)).mpr
            ⟨hc, l₁, l₂, heq, hlt⟩
        exact ⟨is, List.mem_append.mpr (Or.inl (List.mem_append.mpr (Or.inr hmem))), hP⟩
      · obtain ⟨is, hmem, hP⟩ := (valChapters_oo tt verses c v rest _ _).mpr
          ⟨p, htail, hc, l₁, l₂, heq, hlt⟩
        exact ⟨is, List.mem_append.mpr (Or.inr hmem), hP⟩

/-- C1, amended.  `validateIntegrity` emits a verse-level `out_of_order`
issue for chapter `c` and verse value `v` iff some chapter entry parsing to
`c` contains an occurrence of `v` strictly below its *immediately
preceding* verse number (`lastVerse`, which is always advanced; the
predecessor of the first element is the initial 0) — not the maximum seen
earlier: in the sequence 1, 5, 3, 4 only 3 is flagged. -/
theorem c1_out_of_order_iff_below_previous (idx : List (String × List JSInt))
    (textType : String) (verses : List (String × String)) (c v : JSInt) :
    (∃ is ∈ validateIntegrity idx textType verses,
        is.type = "out_of_order" ∧ is.chapter = c ∧ is.verse = some v) ↔
      ∃ p ∈ idx, parseIntJS p.1 = c ∧
        ∃ l₁ l₂, p.2 = l₁ ++ v :: l₂ ∧ jsLt v (l₁.getLast?.getD (some 0)) = true :=
  valChapters_oo textType verses c v idx [] (some 0)

/-- The double verse/character loop of the punctuation scan equals one fold
over the attributed character stream. -/
theorem procVerses_eq_foldKC : ∀ (verses : List (String × String)) (st : PState),
    procVerses defaultPairs verses st = foldKC (versesKeyChars verses) st
  | [], _ => rfl
  | kv :: rest, st => by
    have h1 : procVerses defaultPairs (kv :: rest) st =
        procVerses defaultPairs rest (kv.2.data.foldl (procChar defaultPairs kv.1) st) :=
      rfl
    rw [h1, procVerses_eq_foldKC rest]
    unfold foldKC
    rw [show versesKeyChars (kv :: rest) =
        (kv.2.data.map fun c => (kv.1, c)) ++ versesKeyChars rest from rfl]
    rw [List.foldl_append, List.foldl_map]

/-- The only pairs of the default table. -/
theorem pairLookup_default_cases (o close : Char)
    (h : pairLookup defaultPairs o = some close) :
    (o = '(' ∧ close = ')') ∨ (o = '[' ∧ close = ']') ∨ (o = '{' ∧ close = '}') ∨
      (o = '«' ∧ close = '»') := by
  simp only [defaultPairs, pairLookup] at h
  split_ifs at h with h1 h2 h3 h4
  · exact Or.inl ⟨h1.symm, (Option.some.inj h).symm⟩
  · exact Or.inr (Or.inl ⟨h2.symm, (Option.some.inj h).symm⟩)
  · exact Or.inr (Or.inr (Or.inl ⟨h3.symm, (Option.some.inj h).symm⟩))
  · exact Or.inr (Or.inr (Or.inr ⟨h4.symm, (Option.some.inj h).symm⟩))

/-- An opening character of an asymmetric pair pushes itself on the stack
and touches nothing else. -/
theorem procChar_open_push (k : String) (st : PState) (o close : Char)
    (hlk : pairLookup defaultPairs o = some close) (hne : close ≠ o) :
    procChar defaultPairs k st o =
      { st with
          openVerse := if st.stack.isEmpty then some k else st.openVerse
          stack := (o, k) :: st.stack } := by
  unfold procChar
  simp only [hlk]
  rw [if_neg hne]

/-- The matching closing character pops the stack top and touches nothing
else. -/
theorem procChar_close_pop (k : String) (st : PState) (o close : Char) (k' : String)
    (rest : List (Char × String)) (hlk : pairLookup defaultPairs o = some close)
    (hnone : pairLookup defaultPairs close = none)
    (hval : close ∈ defaultPairs.map (·.2))
    (hstack : st.stack = (o, k') :: rest) :
    procChar defaultPairs k st close = { st with stack := rest } := by
  unfold procChar
  simp only [hnone, hstack]
  rw [if_pos hval, if_pos hlk]

/-- Processing a correctly nested character stream (under the default
pairs) restores the stack, the issue list and the toggles. -/
theorem foldKC_nested {cs : List Char} (h : Nested defaultPairs cs) :
    ∀ (kcs : List (String × Char)) (st : PState), kcs.map Prod.snd = cs →
      (foldKC kcs st).stack = st.stack ∧ (foldKC kcs st).issues = st.issues ∧
        (foldKC kcs st).toggles = st.toggles := by
  induction h with
  | nil =>
    intro kcs st hmap
    rw [List.map_eq_nil_iff.mp hmap]
    exact ⟨rfl, rfl, rfl⟩
  | plain hnone hnotval =>
    rename_i c
    intro kcs st hmap
    cases kcs with
    | nil => simp at hmap
    | cons kc t =>
      cases t with
      | cons b t' => simp at hmap
      | nil =>
        have hkc : kc.2 = c := by simpa using hmap
        have hstep : procChar defaultPairs kc.1 st kc.2 = st := by
          rw [hkc]
          unfold procChar
          simp only [hnone]
          rw [if_neg hnotval]
        have : foldKC [kc] st = procChar defaultPairs kc.1 st kc.2 := rfl
        rw [this, hstep]
        exact ⟨rfl, rfl, rfl⟩
  | wrap hlk hbody ih =>
    intro kcs st hmap
    obtain ⟨kc₁, kcs', rfl, hkc₁, hmap'⟩ := List.map_eq_cons_iff.mp hmap
    obtain ⟨kcsB, kcsC, rfl, hmapB, hmapC⟩ := List.map_eq_append_iff.mp hmap'
    obtain ⟨kc₂, rfl, hkc₂⟩ : ∃ kc₂, kcsC = [kc₂] ∧ kc₂.2 = _ := by
      cases kcsC with
      | nil => simp at hmapC
      | cons a t =>
        cases t with
        | cons b t' => simp at hmapC
        | nil => exact ⟨a, rfl, by simpa using hmapC⟩
    have hfold : foldKC (kc₁ :: (kcsB ++ [kc₂])) st =
        procChar defaultPairs kc₂.1
          (foldKC kcsB (procChar defaultPairs kc₁.1 st kc₁.2)) kc₂.2 := by
      unfold foldKC
      rw [List.foldl_cons, List.foldl_append, List.foldl_cons, List.foldl_nil]
    rcases pairLookup_default_cases _ _ hlk with ⟨ho, hc⟩ | ⟨ho, hc⟩ | ⟨ho, hc⟩ | ⟨ho, hc⟩ <;>
      subst ho <;> subst hc <;>
      (rw [hfold, hkc₁, hkc₂]
       rw [procChar_open_push kc₁.1 st _ _ hlk (by decide)]
       obtain ⟨hs, hi, ht⟩ := ih kcsB _ hmapB
       rw [procChar_close_pop kc₂.1 _ _ _ kc₁.1 st.stack hlk (by decide) (by decide)
         (by rw [hs])]
       exact ⟨rfl, hi, ht⟩)
  | app h₁ h₂ ih₁ ih₂ =>
    intro kcs st hmap
    obtain ⟨kcs₁, kcs₂, rfl, hm₁, hm₂⟩ := List.map_eq_append_iff.mp hmap
    have hsplit : foldKC (kcs₁ ++ kcs₂) st = foldKC kcs₂ (foldKC kcs₁ st) := by
      unfold foldKC
      rw [List.foldl_append]
    obtain ⟨hs₁, hi₁, ht₁⟩ := ih₁ kcs₁ st hm₁
    obtain ⟨hs₂, hi₂, ht₂⟩ := ih₂ kcs₂ (foldKC kcs₁ st) hm₂
    rw [hsplit]
    exact ⟨hs₂.trans hs₁, hi₂.trans hi₁, ht₂.trans ht₁⟩

/-- C5.  Whenever the concatenated extracted verse texts of a document form
a correctly nested sequence of the configured (default) punctuation pairs,
the checker reports zero issues; in particular one pair of every configured
bracket type in one verse, and a pair opened in verse 1:1 and closed in
verse 1:2, both yield zero issues. -/
theorem c5_balanced_punctuation_yields_no_issues :
    (∀ doc : Usj, Nested defaultPairs (versesChars (extractVerses doc)) →
        (detectUnmatchedPunctuation doc none).issues = []) ∧
      (detectUnmatchedPunctuation c5docA none).issues = [] ∧
      (detectUnmatchedPunctuation c5docB none).issues = [] := by
  refine ⟨?_, rfl, rfl⟩
  intro doc h
  have hrw : procVerses defaultPairs (extractVerses doc) ⟨[], [], none, []⟩ =
      foldKC (versesKeyChars (extractVerses doc)) ⟨[], [], none, []⟩ :=
    procVerses_eq_foldKC _ _
  obtain ⟨hs, hi, _⟩ :=
    foldKC_nested h (versesKeyChars (extractVerses doc)) ⟨[], [], none, []⟩ rfl
  show (procVerses defaultPairs (extractVerses doc) ⟨[], [], none, []⟩).issues ++
      (if (procVerses defaultPairs (extractVerses doc) ⟨[], [], none, []⟩).stack.isEmpty
        then []
        else leftoverIssues
          (procVerses defaultPairs (extractVerses doc) ⟨[], [], none, []⟩).openVerse
          (procVerses defaultPairs (extractVerses doc) ⟨[], [], none, []⟩).stack []) = []
  rw [hrw, hi, hs]
  rfl

/-- C5, witness: the nested one-verse text "(a)" yields zero issues. -/
theorem c5_witness : (detectUnmatchedPunctuation c5docW none).issues = [] :=
  c5_balanced_punctuation_yields_no_issues.1 c5docW (by
    have h : versesChars (extractVerses c5docW) = ['(', 'a', ')'] := rfl
    rw [h]
    exact @Nested.wrap defaultPairs '(' ')' ['a'] rfl
      (@Nested.plain defaultPairs 'a' rfl (by decide)))
